import Mathlib

/-!
Verification of `src/ch2/ex2_2_difference_quotients_of_the_norm.cpp`
(Evaluating Derivatives, exercise 2.2).

The file contains two independent programs:

* Experiment 1 — fills a float and a double buffer with uniform random
  samples and prints the squared norm of the first `n = 12` components of
  each, formatted to five decimal places.
* Experiment 2 — initialises `x[i] = (i+1)/gamma`, then scans step sizes
  `h = 10^-k` (outer loop) and problem sizes `n = 1, 10, 100, 1000`
  (inner loop, bounded by the 1024-element buffer), computing the rescaled
  forward difference `gamma^2 * (f(x + h*e1) - f(x))` each time and
  printing either an error line or an underflow message.

The embedding models the floating-point scalars by exact rationals `ℚ`:
arithmetic is translated operation for operation from the source, with
rounding abstracted away.  Arrays are total functions `ℕ → ℚ`; the
programs only ever read indices below the buffer capacity.  Console
output is modelled as a list of events, and the `printf` format strings
are reproduced by an explicit decimal renderer.
-/

/-- Functional update of a buffer: the effect of the C assignment
`x[i] = v` on an array viewed as a function. -/
def upd (x : ℕ → ℚ) (i : ℕ) (v : ℚ) : ℕ → ℚ :=
  fun j => if j = i then v else x j

/-- The norm evaluator `f` (both source files, `template<typename T> f` at
lines 121–135 and the `double` version at lines 198–211): starting from
`result = 0.0`, accumulate `result += x[i]*x[i]` for `i = 0 .. n-1`,
left to right.  The C++ template is mirrored by polymorphism over a
commutative ring, of which the single- and double-precision
instantiations are two instances. -/
def f {R : Type} [CommRing R] (x : ℕ → R) (n : ℕ) : R :=
  (List.range n).foldl (fun result i => result + x i * x i) 0

/-- The initialiser `init_data` (experiment 2, lines 188–196):
`data[i] = (i + 1)/gamma`. -/
def init_data (gamma : ℚ) : ℕ → ℚ :=
  fun i => ((i : ℚ) + 1) / gamma

/-- The buffer right after the first assignment of an inner-loop body
(line 246): `x[0] = (1.0 + h)/gamma`. -/
def xPerturbed (x : ℕ → ℚ) (h gamma : ℚ) : ℕ → ℚ :=
  upd x 0 ((1 + h) / gamma)

/-- The buffer right after the second assignment of an inner-loop body
(line 248): `x[0] = 1.0/gamma`, applied on top of the perturbed buffer. -/
def xBase (x : ℕ → ℚ) (h gamma : ℚ) : ℕ → ℚ :=
  upd (xPerturbed x h gamma) 0 (1 / gamma)

/-- The raw finite difference computed by lines 246–250: evaluate `f` on
the perturbed buffer, subtract the evaluation on the reset buffer, and
multiply by `gamma*gamma`. -/
def pairErrRaw (x : ℕ → ℚ) (h gamma : ℚ) (n : ℕ) : ℚ :=
  (f (xPerturbed x h gamma) n - f (xBase x h gamma) n) * (gamma * gamma)

/-- Signal produced by the inner `n`-loop: `finish` models `goto finish`
(line 254), `nextK` models falling through to `k += 1.0` (after `break`
at line 255 or normal loop exhaustion). -/
inductive Outcome
  | finish
  | nextK

/-- One line of console output of experiment 2. -/
inductive Event
  | errLine (k : ℕ) (n : ℕ) (err : ℚ)
  | diffUnderflow (k : ℕ) (n : ℕ)
  | hUnderflow (k : ℕ)

/-- The inner loop of experiment 2 (lines 243–261), entered at problem
size `n` and continuing while `n < 1024` with `n *= 10`.  Returns the
events printed, the control signal for the outer loop, and the final
buffer.  The guard `0 < n` records the loop invariant `n ≥ 1` (the loop
is entered at `n = 1` and `n` only grows); it also makes the recursion
well founded. -/
def innerLoop (h gamma : ℚ) (k : ℕ) (x : ℕ → ℚ) (n : ℕ) :
    List Event × Outcome × (ℕ → ℚ) :=
  if hn : 0 < n ∧ n < 1024 then
    if pairErrRaw x h gamma n = 0 then
      ([Event.diffUnderflow k n],
       if n = 1 then Outcome.finish else Outcome.nextK,
       xBase x h gamma)
    else
      (Event.errLine k n (pairErrRaw x h gamma n / h - 2) ::
         (innerLoop h gamma k (xBase x h gamma) (n * 10)).1,
       (innerLoop h gamma k (xBase x h gamma) (n * 10)).2.1,
       (innerLoop h gamma k (xBase x h gamma) (n * 10)).2.2)
  else
    ([], Outcome.nextK, x)
termination_by 1024 - n
decreasing_by omega

/-- The outer loop of experiment 2 (lines 235–264), starting at step
exponent `k` with `h = 10^-k` (the C `pow(10.0, -k)` with `k` held in a
`double` counting `0.0, 1.0, ...`).  The loop is unbounded in the
source (`for (;;)`), so the embedding is driven by explicit fuel; the
boolean records whether the program reached `finish` (`true`) or ran
out of fuel (`false`).  The `h == 0.0` test of line 238 is kept even
though `10^-k` never vanishes over `ℚ`. -/
def outerScan (gamma : ℚ) (x : ℕ → ℚ) (k fuel : ℕ) :
    List Event × (ℕ → ℚ) × Bool :=
  match fuel with
  | 0 => ([], x, false)
  | fuel' + 1 =>
    if (1 : ℚ) / 10 ^ k = 0 then
      ([Event.hUnderflow k], x, true)
    else
      match (innerLoop ((1 : ℚ) / 10 ^ k) gamma k x 1).2.1 with
      | Outcome.finish =>
        ((innerLoop ((1 : ℚ) / 10 ^ k) gamma k x 1).1,
         (innerLoop ((1 : ℚ) / 10 ^ k) gamma k x 1).2.2, true)
      | Outcome.nextK =>
        ((innerLoop ((1 : ℚ) / 10 ^ k) gamma k x 1).1 ++
           (outerScan gamma ((innerLoop ((1 : ℚ) / 10 ^ k) gamma k x 1).2.2)
             (k + 1) fuel').1,
         (outerScan gamma ((innerLoop ((1 : ℚ) / 10 ^ k) gamma k x 1).2.2)
           (k + 1) fuel').2.1,
         (outerScan gamma ((innerLoop ((1 : ℚ) / 10 ^ k) gamma k x 1).2.2)
           (k + 1) fuel').2.2)

/-- The `w` decimal digits of `m < 10^w`, left-padded with zeros. -/
def padDigits (w m : ℕ) : String :=
  (Nat.repr (10 ^ w + m)).drop 1

/-- The `printf` fixed-point format `%.wf`: sign, integer part, dot, and
`w` fractional digits of the value rounded to `w` decimal places. -/
def fmtFixed (w : ℕ) (q : ℚ) : String :=
  (if q < 0 then "-" else "")
    ++ Nat.repr ((⌊|q| * 10 ^ w + 1 / 2⌋).toNat / 10 ^ w)
    ++ "." ++ padDigits w ((⌊|q| * 10 ^ w + 1 / 2⌋).toNat % 10 ^ w)

/-- Rendering of experiment 2's output lines (the `printf` calls at
lines 239, 252 and 260; `k` is printed with `%.0f`, `n` with `%d`,
`err` with `%f`, i.e. six decimal places). -/
def renderEvent : Event → String
  | Event.errLine k n e =>
    "k: " ++ Nat.repr k ++ " n: " ++ Nat.repr n ++ " err " ++ fmtFixed 6 e
  | Event.diffUnderflow k n =>
    "difference underflown for k: " ++ Nat.repr k ++ " n: " ++ Nat.repr n
  | Event.hUnderflow k =>
    "underflow for 10^-" ++ Nat.repr k

/-- The initialiser `init_data_uniform` (experiment 1, lines 110–119): fills the `nelem`
entries of a buffer with consecutive samples from the random source.
The random stream `draws` abstracts the GSL generator: the `i`-th call
to `gsl_ran_flat` returns `draws i`, and the two buffers of `main`
consume disjoint segments of the stream.  Entries beyond `nelem` model
uninitialised stack memory and are never read by the program. -/
def init_data_uniform (draws : ℕ → ℚ) (start nelem : ℕ) : ℕ → ℚ :=
  fun i => if i < nelem then draws (start + i) else 0

/-- Experiment 1's `main` (lines 137–153): allocate the RNG (`rngAlloc`
is the success of `gsl_rng_alloc`; on failure the `assert` at line 93
aborts), fill the float buffer then the double buffer from the random
stream, and print the two norms over `n = 12` components with `%.5f`. -/
def experiment1 (rngAlloc : Bool) (draws : ℕ → ℚ) : Except String (List String) :=
  if rngAlloc then
    Except.ok
      [fmtFixed 5 (f (init_data_uniform draws 0 2048) 12),
       fmtFixed 5 (f (init_data_uniform draws 2048 2048) 12)]
  else
    Except.error "assert failed: rng != NULL"

lemma f_zero {R : Type} [CommRing R] (x : ℕ → R) : f x 0 = 0 := rfl

lemma f_succ {R : Type} [CommRing R] (x : ℕ → R) (n : ℕ) :
    f x (n + 1) = f x n + x n * x n := by
  simp [f, List.range_succ]

lemma f_eq_sum {R : Type} [CommRing R] (x : ℕ → R) (n : ℕ) :
    f x n = ∑ i in Finset.range n, x i * x i := by
  induction n with
  | zero => simp [f_zero]
  | succ n ih => rw [f_succ, Finset.sum_range_succ, ih]

lemma f_one {R : Type} [CommRing R] (x : ℕ → R) : f x 1 = x 0 * x 0 := by
  rw [show (1 : ℕ) = 0 + 1 from rfl, f_succ, f_zero, zero_add]

lemma xBase_eq_upd (x : ℕ → ℚ) (h gamma : ℚ) :
    xBase x h gamma = upd x 0 (1 / gamma) := by
  funext j
  by_cases hj : j = 0 <;> simp [xBase, xPerturbed, upd, hj]

lemma xBase_init (gamma h : ℚ) :
    xBase (init_data gamma) h gamma = init_data gamma := by
  funext j
  by_cases hj : j = 0
  · subst hj
    simp [xBase, xPerturbed, upd, init_data]
  · simp [xBase, xPerturbed, upd, hj]

lemma innerLoop_underflow (h gamma : ℚ) (k n : ℕ) (x : ℕ → ℚ)
    (h1 : 0 < n) (h2 : n < 1024) (hz : pairErrRaw x h gamma n = 0) :
    innerLoop h gamma k x n
      = ([Event.diffUnderflow k n],
         if n = 1 then Outcome.finish else Outcome.nextK,
         xBase x h gamma) := by
  rw [innerLoop.eq_def, dif_pos ⟨h1, h2⟩, if_pos hz]

lemma innerLoop_step (h gamma : ℚ) (k n : ℕ) (x : ℕ → ℚ)
    (h1 : 0 < n) (h2 : n < 1024) (hz : pairErrRaw x h gamma n ≠ 0) :
    innerLoop h gamma k x n
      = (Event.errLine k n (pairErrRaw x h gamma n / h - 2) ::
           (innerLoop h gamma k (xBase x h gamma) (n * 10)).1,
         (innerLoop h gamma k (xBase x h gamma) (n * 10)).2.1,
         (innerLoop h gamma k (xBase x h gamma) (n * 10)).2.2) := by
  rw [innerLoop.eq_def, dif_pos ⟨h1, h2⟩, if_neg hz]

/-- C1: lines 246–250 compute exactly the rescaled forward difference
`gamma^2 * (f(x with first component (1+h)/gamma) - f(x with first
component 1/gamma))`: the second evaluation (whose buffer is the result
of the two successive stores to `x[0]`) sees the base vector, and the
difference is multiplied by `gamma^2`. -/
theorem raw_difference_formula (x : ℕ → ℚ) (h gamma : ℚ) (n : ℕ) :
    pairErrRaw x h gamma n
      = gamma * gamma *
          (f (upd x 0 ((1 + h) / gamma)) n - f (upd x 0 (1 / gamma)) n) := by
  rw [pairErrRaw, xBase_eq_upd, xPerturbed]
  ring

/-- C2: when the computed difference is exactly zero at a pair `(k, n)`,
the inner loop prints the underflow message for that pair and stops
(its event list for the remaining iterations is exactly that one
message), and the signal it hands to the outer loop is `finish` — which
by definition of `outerScan` ends the whole scan — precisely when
`n = 1`; otherwise the signal is `nextK` and the outer loop proceeds
with the next exponent `k`. -/
theorem underflow_control_flow (h gamma : ℚ) (k n : ℕ) (x : ℕ → ℚ)
    (h1 : 0 < n) (h2 : n < 1024) (hz : pairErrRaw x h gamma n = 0) :
    (innerLoop h gamma k x n).1 = [Event.diffUnderflow k n]
      ∧ ((innerLoop h gamma k x n).2.1 = Outcome.finish ↔ n = 1) := by
  rw [innerLoop_underflow h gamma k n x h1 h2 hz]
  refine ⟨rfl, ?_⟩
  by_cases hn1 : n = 1
  · simp [hn1]
  · simp [hn1]

/-- Witness for `underflow_control_flow`: with `h = -2`, `gamma = 100`,
the computed difference at `n = 1` is exactly zero, and the loop emits
the underflow message and signals `finish`. -/
theorem underflow_control_flow_witness :
    (0 < 1) ∧ (1 < 1024) ∧ pairErrRaw (init_data 100) (-2) 100 1 = 0
      ∧ (innerLoop (-2) 100 7 (init_data 100) 1).1 = [Event.diffUnderflow 7 1]
      ∧ ((innerLoop (-2) 100 7 (init_data 100) 1).2.1 = Outcome.finish ↔ 1 = 1) := by
  have hz : pairErrRaw (init_data 100) (-2) 100 1 = 0 := by
    rw [pairErrRaw, f_one, f_one]
    norm_num [xPerturbed, xBase, upd]
  exact ⟨by norm_num, by norm_num, hz,
    underflow_control_flow (-2) 100 7 1 (init_data 100) (by norm_num) (by norm_num) hz⟩

lemma pairErr_k0_n1 : pairErrRaw (init_data 100) 1 100 1 = 3 := by
  rw [pairErrRaw, f_one, f_one]
  norm_num [xPerturbed, xBase, upd]

lemma fmt6_one : fmtFixed 6 1 = "1.000000" := by
  rw [fmtFixed, if_neg (by norm_num : ¬(1 : ℚ) < 0)]
  have hfl : ⌊|(1 : ℚ)| * 10 ^ 6 + 1 / 2⌋ = 1000000 := by
    rw [abs_one]
    norm_num
  rw [hfl]
  rfl

lemma outerScan_head (gamma : ℚ) (x : ℕ → ℚ) (k fuel : ℕ) (hv : ℚ)
    (hveq : (1 : ℚ) / 10 ^ k = hv) (hh : hv ≠ 0) (e : Event) (l : List Event)
    (hl : (innerLoop hv gamma k x 1).1 = e :: l) :
    (outerScan gamma x k (fuel + 1)).1.head? = some e := by
  rw [outerScan.eq_def]
  simp only [hveq]
  rw [if_neg hh]
  cases hoc : (innerLoop hv gamma k x 1).2.1 <;> simp [hoc, hl]

/-- C4: with `gamma = 100`, at the first pair `k = 0` (so `h = 10^0 = 1`)
and `n = 1`, the raw difference is `3`, the approximate derivative
`3/1 = 3` deviates from the analytic value `2` by `1`, and the first
line of the scan's output is the error line rendering exactly as
`k: 0 n: 1 err 1.000000`. -/
theorem first_line_k0_n1 :
    (outerScan 100 (init_data 100) 0 1).1.head? = some (Event.errLine 0 1 1)
      ∧ renderEvent (Event.errLine 0 1 1) = "k: 0 n: 1 err 1.000000"
      ∧ pairErrRaw (init_data 100) 1 100 1 = 3
      ∧ pairErrRaw (init_data 100) 1 100 1 / 1 - 2 = 1 := by
  have hp : pairErrRaw (init_data 100) 1 100 1 = 3 := pairErr_k0_n1
  have h1 : (innerLoop 1 100 0 (init_data 100) 1).1
      = Event.errLine 0 1 1
          :: (innerLoop 1 100 0 (xBase (init_data 100) 1 100) 10).1 := by
    rw [innerLoop_step 1 100 0 1 (init_data 100) (by norm_num) (by norm_num)
          (by rw [hp]; norm_num)]
    rw [hp]
    norm_num
  refine ⟨?_, ?_, hp, by rw [hp]; norm_num⟩
  · exact outerScan_head 100 (init_data 100) 0 0 1 (by norm_num) (by norm_num)
      (Event.errLine 0 1 1) _ h1
  · rw [renderEvent, fmt6_one]
    rfl

/-- C5: the norm evaluator is the sum of the squares of the first `n`
components, accumulated sequentially left to right starting from `0`
(`f x 0 = 0` and `f x (n+1) = f x n + x n * x n`); the statement is
generic over a commutative ring, of which the single- and
double-precision instantiations of the C++ template are two instances,
and `f` is a pure function, hence deterministic on equal inputs. -/
theorem norm_sequential_sum_of_squares {R : Type} [CommRing R]
    (x : ℕ → R) (n : ℕ) :
    f x n = ∑ i in Finset.range n, x i * x i
      ∧ f x 0 = 0
      ∧ f x (n + 1) = f x n + x n * x n :=
  ⟨f_eq_sum x n, f_zero x, f_succ x n⟩

/-- C6: the rescaling identity of the scaled norm — dividing every
component by `gamma` and multiplying the result of `f` by `gamma^2`
recovers `f` of the original vector; exact over the rational model of
the arithmetic, for any `gamma ≠ 0`. -/
theorem rescaling_identity (gamma : ℚ) (hg : gamma ≠ 0) (x : ℕ → ℚ) (n : ℕ) :
    f (fun i => x i / gamma) n * (gamma * gamma) = f x n := by
  induction n with
  | zero => simp [f_zero]
  | succ n ih =>
    rw [f_succ, f_succ, add_mul, ih]
    congr 1
    field_simp

/-- Witness for `rescaling_identity` at `gamma = 2`, `x i = i`, `n = 3`. -/
theorem rescaling_identity_witness :
    (2 : ℚ) ≠ 0
      ∧ f (fun i => (i : ℚ) / 2) 3 * (2 * 2) = f (fun i => (i : ℚ)) 3 :=
  ⟨by norm_num, rescaling_identity 2 (by norm_num) (fun i => (i : ℚ)) 3⟩

/-- C7: on any vector whose first `n` components are all `1`, the norm
evaluator returns exactly `n`, in any commutative-ring instantiation of
the template (in particular both precisions of the exact model). -/
theorem all_ones_value (R : Type) [CommRing R] (n : ℕ) (x : ℕ → R)
    (hx : ∀ i < n, x i = 1) : f x n = n := by
  induction n with
  | zero => simp [f_zero]
  | succ n ih =>
    rw [f_succ, ih (fun i hi => hx i (by omega)), hx n (by omega)]
    push_cast
    ring

/-- Witness for `all_ones_value`: the all-ones vector over `ℚ`, `n = 5`. -/
theorem all_ones_value_witness :
    (∀ i < 5, (fun _ : ℕ => (1 : ℚ)) i = 1)
      ∧ f (fun _ : ℕ => (1 : ℚ)) 5 = ((5 : ℕ) : ℚ) :=
  ⟨fun _ _ => rfl, all_ones_value ℚ 5 (fun _ => (1 : ℚ)) (fun _ _ => rfl)⟩

/-- C10: the norm evaluator reads only the first `n` components — two
buffers agreeing on indices `0 .. n-1` produce identical results,
whatever the rest of the buffers contain. -/
theorem norm_reads_only_first_n {R : Type} [CommRing R]
    (x y : ℕ → R) (n : ℕ) (hxy : ∀ i < n, x i = y i) : f x n = f y n := by
  induction n with
  | zero => rfl
  | succ n ih =>
    rw [f_succ, f_succ, ih (fun i hi => hxy i (by omega)), hxy n (by omega)]

/-- Witness for `norm_reads_only_first_n`: two buffers that agree below
`n = 2` and differ everywhere above. -/
theorem norm_reads_only_first_n_witness :
    (∀ i < 2, (fun i : ℕ => (i : ℚ)) i
        = (fun i : ℕ => if i < 2 then (i : ℚ) else 99) i)
      ∧ f (fun i : ℕ => (i : ℚ)) 2
          = f (fun i : ℕ => if i < 2 then (i : ℚ) else 99) 2 := by
  have hag : ∀ i < 2, (fun i : ℕ => (i : ℚ)) i
      = (fun i : ℕ => if i < 2 then (i : ℚ) else 99) i := by
    intro i hi
    simp [hi]
  exact ⟨hag, norm_reads_only_first_n _ _ 2 hag⟩

lemma f_one_buffer (start : ℕ) :
    f (init_data_uniform (fun _ => 1) start 2048) 12 = 12 := by
  have h12 : ∀ n, n ≤ 12 →
      f (init_data_uniform (fun _ => (1 : ℚ)) start 2048) n = (n : ℚ) := by
    intro n
    induction n with
    | zero => intro _; rfl
    | succ n ih =>
      intro hn
      have hv : init_data_uniform (fun _ => (1 : ℚ)) start 2048 n = 1 := by
        simp [init_data_uniform, (by omega : n < 2048)]
      rw [f_succ, ih (by omega), hv]
      push_cast
      ring
  exact_mod_cast h12 12 le_rfl

lemma fmt5_twelve : fmtFixed 5 12 = "12.00000" := by
  rw [fmtFixed, if_neg (by norm_num : ¬(12 : ℚ) < 0)]
  have hfl : ⌊|(12 : ℚ)| * 10 ^ 5 + 1 / 2⌋ = 1200000 := by
    rw [abs_of_nonneg (by norm_num : (0 : ℚ) ≤ 12)]
    norm_num
  rw [hfl]
  rfl

/-- C8: experiment 1 prints exactly two lines — the `%.5f`-formatted
norm of the first 12 components of the float buffer, then of the double
buffer, both filled from the random stream — and succeeds; if the RNG
allocation fails, the `assert` aborts the process instead.  On the
all-ones stream the two lines are concretely `12.00000`. -/
theorem experiment1_output (draws : ℕ → ℚ) :
    experiment1 true draws
        = Except.ok
            [fmtFixed 5 (f (init_data_uniform draws 0 2048) 12),
             fmtFixed 5 (f (init_data_uniform draws 2048 2048) 12)]
      ∧ experiment1 false draws = Except.error "assert failed: rng != NULL"
      ∧ experiment1 true (fun _ => 1)
          = Except.ok ["12.00000", "12.00000"] := by
  refine ⟨rfl, rfl, ?_⟩
  simp only [experiment1, if_true, f_one_buffer, fmt5_twelve]

lemma innerLoop_state_restore (h gamma : ℚ) (k : ℕ) :
    ∀ m n, 1024 - n ≤ m →
      (innerLoop h gamma k (init_data gamma) n).2.2 = init_data gamma := by
  intro m
  induction m with
  | zero =>
    intro n hn
    rw [innerLoop.eq_def, dif_neg (by omega)]
  | succ m ih =>
    intro n hn
    by_cases hcond : 0 < n ∧ n < 1024
    · by_cases hz : pairErrRaw (init_data gamma) h gamma n = 0
      · rw [innerLoop_underflow h gamma k n _ hcond.1 hcond.2 hz]
        exact xBase_init gamma h
      · rw [innerLoop_step h gamma k n _ hcond.1 hcond.2 hz]
        dsimp only
        rw [xBase_init]
        exact ih (n * 10) (by omega)
    · rw [innerLoop.eq_def, dif_neg hcond]

lemma outerScan_state (gamma : ℚ) :
    ∀ fuel k, (outerScan gamma (init_data gamma) k fuel).2.1 = init_data gamma := by
  intro fuel
  induction fuel with
  | zero => intro k; rfl
  | succ m ih =>
    intro k
    have hst : (innerLoop (((10 : ℚ) ^ k)⁻¹) gamma k (init_data gamma) 1).2.2
        = init_data gamma :=
      innerLoop_state_restore _ _ _ 1024 1 (by omega)
    by_cases hh : ((10 : ℚ) ^ k)⁻¹ = 0
    · simp [outerScan, hh]
    · cases hoc : (innerLoop (((10 : ℚ) ^ k)⁻¹) gamma k (init_data gamma) 1).2.1 with
      | finish => simp [outerScan, hh, hoc, hst]
      | nextK => simp [outerScan, hh, hoc, hst, ih]

/-- C9: the scan never disturbs the base data.  Both stores of an
inner-loop body write only index `0`, so every component `i ≥ 1` keeps
its initialised value; the initial value of component `0` is `1/gamma`,
and after every pair — hence at the start of every pair evaluation —
the buffer is again exactly `init_data gamma`, through the inner loop
and through any number of outer iterations. -/
theorem scan_frame_invariant :
    (∀ (gamma h : ℚ) (x : ℕ → ℚ) (i : ℕ), 1 ≤ i →
        xPerturbed x h gamma i = x i ∧ xBase x h gamma i = x i)
      ∧ (∀ gamma : ℚ, init_data gamma 0 = 1 / gamma)
      ∧ (∀ (h gamma : ℚ) (k n : ℕ),
          (innerLoop h gamma k (init_data gamma) n).2.2 = init_data gamma)
      ∧ (∀ (gamma : ℚ) (k fuel : ℕ),
          (outerScan gamma (init_data gamma) k fuel).2.1 = init_data gamma) := by
  refine ⟨?_, ?_, ?_, ?_⟩
  · intro gamma h x i hi
    have hne : i ≠ 0 := by omega
    constructor <;> simp [xPerturbed, xBase, upd, hne]
  · intro gamma
    norm_num [init_data]
  · intro h gamma k n
    exact innerLoop_state_restore h gamma k 1024 n (by omega)
  · intro gamma k fuel
    exact outerScan_state gamma fuel k

/-- Witness for `scan_frame_invariant`: component `3` is untouched by
the two stores of a pair body. -/
theorem scan_frame_invariant_witness :
    (1 ≤ 3)
      ∧ xPerturbed (init_data 100) (1 / 10) 100 3 = init_data 100 3
      ∧ xBase (init_data 100) (1 / 10) 100 3 = init_data 100 3 :=
  ⟨by norm_num,
   (scan_frame_invariant.1 100 (1 / 10) (init_data 100) 3 (by norm_num)).1,
   (scan_frame_invariant.1 100 (1 / 10) (init_data 100) 3 (by norm_num)).2⟩
